import Mathlib

/-!
Verification of the dealeshwar price-tracking service.

The development shallowly embeds the serverless handlers of the repository:
the cross-platform matcher (word-overlap similarity, per-vendor
deduplication, price ranking), the AI purchase-recommendation handler with
its deterministic fallback, the price-statistics computation of the product
history page, the scrape-product handler's vendor dispatch and database
writes, and the price-history row construction of the three search
handlers.

JavaScript numbers are modelled as rationals; a numeric result that may be
NaN is modelled as `Option ℚ` with `none` standing for NaN. Strings are
Lean strings, taken apart into character lists where the code manipulates
them.
-/

namespace Dealeshwar

/-! ### Word splitting and containment (search-platforms matcher)

`calculateSimilarity` in the cross-platform matcher lowercases both inputs,
splits on single spaces, keeps words of length > 2, counts the words of the
first list that have a containment match in the second, and divides by the
larger word count.
-/

/-- JavaScript `String.prototype.split(' ')` on a character list: split at
every single space character, keeping empty fragments. -/
def splitSpaces : List Char → List (List Char)
  | [] => [[]]
  | c :: rest =>
    match splitSpaces rest with
    | [] => [[]]
    | w :: ws => if c = ' ' then [] :: w :: ws else (c :: w) :: ws

/-- Lowercased character list of a string, modelling `toLowerCase()`. -/
def jsToLower (s : String) : List Char :=
  s.data.map Char.toLower

/-- Significant words of a string: lowercase, split on spaces, keep words of
length > 2 (`.split(' ').filter(w => w.length > 2)`). -/
def significantWords (s : String) : List (List Char) :=
  (splitSpaces (jsToLower s)).filter (fun w => 2 < w.length)

/-- Boolean list-prefix test. -/
def isPrefixL : List Char → List Char → Bool
  | [], _ => true
  | _ :: _, [] => false
  | a :: as, b :: bs => a = b && isPrefixL as bs

/-- Boolean substring test: `isInfixL needle hay` models
`hay.includes(needle)` for JavaScript strings. -/
def isInfixL (needle : List Char) : List Char → Bool
  | [] => needle.isEmpty
  | c :: rest => isPrefixL needle (c :: rest) || isInfixL needle rest

/-- The per-word test of the matcher:
`word1.includes(word2) || word2.includes(word1)`. -/
def wordMatch (w1 w2 : List Char) : Bool :=
  isInfixL w2 w1 || isInfixL w1 w2

/-- `calculateSimilarity` of the cross-platform matcher. The inner loop
with `break` counts each word of the first list at most once, which is the
`countP` below. The result is `matches / max(words1.length, words2.length)`;
when both word lists are empty this is the unguarded division 0/0, i.e. NaN,
modelled as `none`. -/
def calculateSimilarity (str1 str2 : String) : Option ℚ :=
  let words1 := significantWords str1
  let words2 := significantWords str2
  let matchCount := words1.countP (fun w1 => words2.any (fun w2 => wordMatch w1 w2))
  let denom := max words1.length words2.length
  if denom = 0 then none else some ((matchCount : ℚ) / (denom : ℚ))

/-- JavaScript comparison `x > t` where `x` may be NaN: NaN compares false. -/
def simGTb (x : Option ℚ) (t : ℚ) : Bool :=
  match x with
  | none => false
  | some q => t < q

/-! ### Matcher results, deduplication, ranking (search-platforms matcher)

The cross-platform matcher collects `PlatformSearchResult`s, removes
duplicates with a `reduce`, sorts the survivors by `numericPrice`, and
reports the head of the sorted list as the best deal.
-/

/-- One accepted candidate of the cross-platform matcher (the fields the
deduplication, ranking and persistence steps read). -/
structure PlatformSearchResult where
  platform : String
  name : String
  url : String
  numericPrice : ℚ
deriving DecidableEq, Repr

/-- The duplicate test used both in `acc.find` and `acc.filter` of the
matcher's `reduce`:
`item.platform === current.platform && calculateSimilarity(item.name, current.name) > 0.8`. -/
def dedupMatch (item current : PlatformSearchResult) : Bool :=
  (item.platform == current.platform)
    && simGTb (calculateSimilarity item.name current.name) 0.8

/-- One step of the matcher's `reduce`: if no accumulated item duplicates
the current one, or the current one is strictly cheaper than the first
duplicate found, drop every duplicate from the accumulator and append the
current item; otherwise keep the accumulator. -/
def dedupStep (acc : List PlatformSearchResult) (current : PlatformSearchResult) :
    List PlatformSearchResult :=
  match acc.find? (fun item => dedupMatch item current) with
  | none => (acc.filter (fun item => !(dedupMatch item current))) ++ [current]
  | some existing =>
    if current.numericPrice < existing.numericPrice then
      (acc.filter (fun item => !(dedupMatch item current))) ++ [current]
    else acc

/-- `uniqueResults`: the matcher's duplicate-removing `reduce` with initial
accumulator `[]`. -/
def uniqueResults (allResults : List PlatformSearchResult) : List PlatformSearchResult :=
  allResults.foldl dedupStep []

/-- The comparison of `uniqueResults.sort((a, b) => a.numericPrice - b.numericPrice)`. -/
def priceLE (a b : PlatformSearchResult) : Prop :=
  a.numericPrice ≤ b.numericPrice

instance : DecidableRel priceLE :=
  fun a b => inferInstanceAs (Decidable (a.numericPrice ≤ b.numericPrice))

instance : IsTotal PlatformSearchResult priceLE :=
  ⟨fun a b => le_total a.numericPrice b.numericPrice⟩

instance : IsTrans PlatformSearchResult priceLE :=
  ⟨fun _ _ _ hab hbc => le_trans hab hbc⟩

/-- The matcher's returned result list: duplicates removed, then sorted
ascending by numeric price (JavaScript's stable sort is modelled by
insertion sort). -/
def finalResults (allResults : List PlatformSearchResult) : List PlatformSearchResult :=
  List.insertionSort priceLE (uniqueResults allResults)

/-- `bestDeal`: the first element of the sorted result list, `null` (here
`none`) when the list is empty. -/
def bestDeal (allResults : List PlatformSearchResult) : Option PlatformSearchResult :=
  (finalResults allResults).head?

/-! ### Purchase-recommendation handler (ai-purchase-recommendation)

The handler reads `{product, priceHistory, priceStats}`, calls the OpenAI
chat endpoint, and parses the model's reply. Only a reply that arrives with
an OK HTTP status but fails `JSON.parse` is replaced by the deterministic
fallback; a transport error or a non-OK status is thrown to the outer
`catch`, which returns a 500 error response. The prompt construction does
not influence the returned value and is omitted; `JSON.parse` of the
model's reply is abstracted as an `Option Recommendation`.
-/

/-- Aggregated price statistics passed to the recommendation handler. -/
structure PriceStats where
  current : ℚ
  min : ℚ
  max : ℚ
  avg : ℚ
deriving DecidableEq, Repr

/-- The recommendation shape returned to the client. -/
structure Recommendation where
  shouldBuy : Bool
  reason : String
  pricePoint : String
  confidence : ℚ
deriving DecidableEq, Repr

/-- The deterministic fallback recommendation built when the model's reply
does not parse: `shouldBuy` compares current to average, `pricePoint` uses
the 10%-above-minimum and average thresholds, confidence is fixed at 75. -/
def fallbackRecommendation (s : PriceStats) : Recommendation :=
  { shouldBuy := s.current ≤ s.avg
    reason := "Current price is "
      ++ (if s.current ≤ s.avg then "below" else "above")
      ++ " average. Analysis based on price history."
    pricePoint :=
      if s.current ≤ s.min * 1.1 then "Great deal"
      else if s.current ≤ s.avg then "Good price"
      else "Above average"
    confidence := 75 }

/-- Outcome of the `fetch` to the model endpoint, as the handler observes
it: a transport error (the `fetch` promise rejects), or a response with an
HTTP status and the `JSON.parse` result of the model's reply text. -/
inductive ModelCall where
  | transportError
  | response (status : ℕ) (parsedReply : Option Recommendation)
deriving DecidableEq, Repr

/-- What the handler sends back: a 200 with a recommendation, or a
structured error response from the outer `catch`. -/
inductive HandlerResult where
  | ok (r : Recommendation)
  | error (status : ℕ) (msg : String)
deriving DecidableEq, Repr

/-- `response.ok` of the Fetch API: status in [200, 300). -/
def responseOk (status : ℕ) : Bool :=
  200 ≤ status && status < 300

/-- The recommendation handler's control flow around the model call:
a transport error and a non-OK status are thrown and caught by the outer
`catch` (500 error response); an OK response is parsed, and only a parse
failure selects the deterministic fallback. -/
def handleRecommendation (s : PriceStats) (call : ModelCall) : HandlerResult :=
  match call with
  | .transportError => .error 500 "Failed to generate recommendation"
  | .response status parsedReply =>
    if responseOk status then
      match parsedReply with
      | some r => .ok r
      | none => .ok (fallbackRecommendation s)
    else .error 500 "Failed to generate recommendation"

/-! ### Price statistics of the product-history page (ProductHistory.tsx)

`fetchProductData` orders the price records by capture time descending and,
when at least one record exists, computes
`{min: Math.min(...prices), max: Math.max(...prices),
avg: sum / length, current: historyData[0].price}`.
-/

/-- `Math.min(...prices)` over a non-empty list (0 as an unused default for
the empty list, which the page guards against). -/
def priceMin : List ℚ → ℚ
  | [] => 0
  | p :: ps => ps.foldl min p

/-- `Math.max(...prices)` over a non-empty list. -/
def priceMax : List ℚ → ℚ
  | [] => 0
  | p :: ps => ps.foldl max p

/-- `prices.reduce((a, b) => a + b, 0) / prices.length`. -/
def priceAvg (prices : List ℚ) : ℚ :=
  prices.sum / prices.length

/-- `historyData[0].price`: the price of the most recent record, the head
of the descending-ordered list. -/
def currentPrice (prices : List ℚ) : ℚ :=
  prices.headD 0

/-- The derived statistics of the product-history page for a price list
ordered most-recent first. -/
def computeStats (prices : List ℚ) : PriceStats :=
  { min := priceMin prices
    max := priceMax prices
    avg := priceAvg prices
    current := currentPrice prices }

/-! ### Scrape-product handler (scrape-product)

`scrapeProduct` fetches the page first, parses it, and only then dispatches
on the URL: `url.includes('amazon.')`, `url.includes('flipkart.')`, … in
order, throwing `'Unsupported platform'` when no token occurs anywhere in
the URL. The per-vendor DOM extraction never throws and is abstracted as an
oracle from the vendor to the extracted `ProductData`. The handler inserts
a product row and a price-history row only after a successful extraction.
-/

/-- The vendors of the scrape-product dispatch, in source order. -/
inductive Vendor where
  | amazon
  | flipkart
  | myntra
  | ajio
  | nykaa
deriving DecidableEq, Repr

/-- `hay.includes(needle)` for Lean strings. -/
def jsIncludes (hay needle : String) : Bool :=
  isInfixL needle.data hay.data

/-- The vendor-dispatch of `scrapeProduct`: substring tests against the
whole URL, in source order; `none` models the `'Unsupported platform'`
throw. -/
def vendorFor (url : String) : Option Vendor :=
  if jsIncludes url "amazon." then some .amazon
  else if jsIncludes url "flipkart." then some .flipkart
  else if jsIncludes url "myntra." then some .myntra
  else if jsIncludes url "ajio." then some .ajio
  else if jsIncludes url "nykaa." then some .nykaa
  else none

/-- Modelled from the spec: the domain of a URL, i.e. what remains after
the scheme's `://` up to the first `/`. The source has no such function —
its dispatch inspects the entire URL — so this definition exists only to
state claims that speak about the URL's domain. -/
def specUrlDomain (url : String) : String :=
  let rest :=
    if isInfixL "://".data url.data then
      ((url.data.dropWhile (fun c => c ≠ ':')).drop 3)
    else url.data
  ⟨rest.takeWhile (fun c => c ≠ '/')⟩

/-- Modelled from the spec: a domain counts as supported when one of the
enumerated vendor tokens occurs in it. -/
def specDomainSupported (domain : String) : Bool :=
  jsIncludes domain "amazon." || jsIncludes domain "flipkart."
    || jsIncludes domain "myntra." || jsIncludes domain "ajio."
    || jsIncludes domain "nykaa."

/-- The events of one `scrapeProduct` call, in the order the source
performs them: the page fetch (line 28) happens before the vendor dispatch
(lines 36–48) selects an extractor. -/
inductive ScrapeEvent where
  | fetch (url : String)
  | extractWith (v : Vendor)
deriving DecidableEq, Repr

/-- The event trace of `scrapeProduct url`: the fetch always comes first;
an extraction event follows only when the dispatch recognises the URL. -/
def scrapeProductTrace (url : String) : List ScrapeEvent :=
  ScrapeEvent.fetch url ::
    (match vendorFor url with
     | some v => [ScrapeEvent.extractWith v]
     | none => [])

/-- The data a per-vendor extractor returns (the fields the handler
persists). The extractors never throw: missing selectors degrade to an
empty name or a zero price. -/
structure ProductData where
  name : String
  price : ℚ
  currency : String
  brand : String
  platformName : String
  platformUrl : String
  inStock : Bool
deriving DecidableEq, Repr

/-- A row of the `products` table as the handler inserts it. -/
structure ProductRow where
  id : ℕ
  userId : String
  productName : String
  brand : String
  originalUrl : String
deriving DecidableEq, Repr

/-- A row of the `price_history` table as the handlers insert it. -/
structure PriceRow where
  productId : ℕ
  platformName : String
  platformUrl : String
  price : ℚ
  currency : String
  inStock : Bool
deriving DecidableEq, Repr

/-- The two tables the scrape handler writes. -/
structure DBState where
  products : List ProductRow
  priceHistory : List PriceRow
deriving DecidableEq, Repr

/-- The scrape handler's responses: 400 when `url` or `user_id` is missing,
500 with the thrown message from the outer `catch`, or the success payload. -/
inductive ScrapeResponse where
  | badRequest
  | scrapeError (msg : String)
  | success (currentPrice : ℚ) (currency : String)
deriving DecidableEq, Repr

/-- The scrape-product handler: validate the body, run `scrapeProduct`
(vendor dispatch plus extraction oracle `page`), and on success insert one
product row and one price-history row; any throw reaches the outer `catch`
and leaves the database untouched. The database id of the new product is
modelled as the next index. -/
def handleScrape (st : DBState) (url userId : String) (page : Vendor → ProductData) :
    DBState × ScrapeResponse :=
  if url = "" || userId = "" then (st, .badRequest)
  else
    match vendorFor url with
    | none => (st, .scrapeError "Unsupported platform")
    | some v =>
      let pd := page v
      let newId := st.products.length
      let prodRow : ProductRow :=
        { id := newId, userId := userId, productName := pd.name
          brand := pd.brand, originalUrl := url }
      let priceRow : PriceRow :=
        { productId := newId, platformName := pd.platformName
          platformUrl := pd.platformUrl, price := pd.price
          currency := pd.currency, inStock := pd.inStock }
      ({ products := st.products ++ [prodRow]
         priceHistory := st.priceHistory ++ [priceRow] },
       .success pd.price pd.currency)

/-! ### Price-history rows written by the search handlers

Three handlers insert `price_history` rows from scraped listings: the
cross-platform matcher (one row per deduplicated result), the legacy
search-platforms handler (one row per accepted match), and the
Google-Shopping handler (one row per result mapped to a known platform).
-/

/-- The row the cross-platform matcher inserts for one deduplicated result:
currency and stock flag are the literals `'INR'` and `true`. -/
def matcherPriceRow (productId : ℕ) (r : PlatformSearchResult) : PriceRow :=
  { productId := productId, platformName := r.platform, platformUrl := r.url
    price := r.numericPrice, currency := "INR", inStock := true }

/-- All rows the matcher's persistence loop inserts. -/
def matcherInsertedRows (productId : ℕ) (unique : List PlatformSearchResult) :
    List PriceRow :=
  unique.map (matcherPriceRow productId)

/-- An accepted match of the legacy search-platforms handler (the fields
its insert reads). -/
structure LegacyMatch where
  platform : String
  url : String
  price : ℚ
deriving DecidableEq, Repr

/-- The row the legacy search-platforms handler inserts for one accepted
match: currency and stock flag are the literals `'INR'` and `true`. -/
def legacyPriceRow (productId : ℕ) (r : LegacyMatch) : PriceRow :=
  { productId := productId, platformName := r.platform, platformUrl := r.url
    price := r.price, currency := "INR", inStock := true }

/-- All rows the legacy handler inserts. -/
def legacyInsertedRows (productId : ℕ) (accepted : List LegacyMatch) :
    List PriceRow :=
  accepted.map (legacyPriceRow productId)

/-- One raw Google-Shopping result as the regex scraping yields it. -/
structure GoogleShoppingResult where
  title : String
  price : String
  source : String
  link : String
deriving DecidableEq, Repr

/-- `platformMappings` of the Google-Shopping handler: lowercase key to
display name, in source order. -/
def platformMappings : List (String × String) :=
  [("amazon", "Amazon"), ("flipkart", "Flipkart"), ("myntra", "Myntra"),
   ("ajio", "AJIO"), ("nykaa", "Nykaa"), ("meesho", "Meesho"),
   ("snapdeal", "Snapdeal"), ("paytm", "Paytm Mall")]

/-- Digit run to a rational (base 10, left to right). -/
def digitsVal (cs : List Char) : ℚ :=
  cs.foldl (fun acc c => acc * 10 + ((c.toNat - 48 : ℕ) : ℚ)) 0

/-- JavaScript `parseFloat` on a character list, restricted to the inputs
the handler produces (digits and dots, after `replace(/[^\d.]/g, '')`):
leading integer digits, an optional fraction after the first dot, anything
later ignored; `none` models NaN when no digit is found. -/
def jsParseFloat (cs : List Char) : Option ℚ :=
  let intPart := cs.takeWhile Char.isDigit
  let rest := cs.dropWhile Char.isDigit
  let fracPart :=
    match rest with
    | '.' :: r => r.takeWhile Char.isDigit
    | _ => []
  if intPart.isEmpty && fracPart.isEmpty then none
  else some (digitsVal intPart + digitsVal fracPart / (10 : ℚ) ^ fracPart.length)

/-- `parseFloat(result.price.replace(/[^\d.]/g, ''))`. -/
def parsePriceText (s : String) : Option ℚ :=
  jsParseFloat (s.data.filter (fun c => c.isDigit || c = '.'))

/-- A mapped result the Google-Shopping handler builds: platform display
name, link, parsed price, and the literals `currency: 'INR'`,
`in_stock: true`, `source: 'google_shopping'`. -/
structure MappedResult where
  platformName : String
  platformUrl : String
  title : String
  price : ℚ
  currency : String
  inStock : Bool
  sourceTag : String
deriving DecidableEq, Repr

/-- `mapToKnownPlatforms` for one raw result: the first mapping whose key
occurs in the lowercased source wins; the result is kept only when the
parsed price is positive (NaN, modelled `none`, is never positive). -/
def mapOneResult (r : GoogleShoppingResult) : Option MappedResult :=
  match platformMappings.find? (fun kv => isInfixL kv.1.data (jsToLower r.source)) with
  | none => none
  | some kv =>
    match parsePriceText r.price with
    | none => none
    | some p =>
      if 0 < p then
        some { platformName := kv.2, platformUrl := r.link, title := r.title
               price := p, currency := "INR", inStock := true
               sourceTag := "google_shopping" }
      else none

/-- `mapToKnownPlatforms` over the scraped result list. -/
def mapToKnownPlatforms (results : List GoogleShoppingResult) : List MappedResult :=
  results.filterMap mapOneResult

/-- The row the Google-Shopping handler inserts for one mapped result,
copying the mapped result's currency and stock flag. -/
def googlePriceRow (productId : ℕ) (m : MappedResult) : PriceRow :=
  { productId := productId, platformName := m.platformName
    platformUrl := m.platformUrl, price := m.price
    currency := m.currency, inStock := m.inStock }

/-- All rows the Google-Shopping handler inserts for a request. -/
def googleInsertedRows (productId : ℕ) (results : List GoogleShoppingResult) :
    List PriceRow :=
  (mapToKnownPlatforms results).map (googlePriceRow productId)

/-! ### Concrete sample inputs used by witnesses and counterexamples -/

/-- Sample statistics: current 80, minimum 70, maximum 120, average 100. -/
def sampleStats : PriceStats :=
  { current := 80, min := 70, max := 120, avg := 100 }

/-- Sample matcher candidate: name "aaab", price 5. -/
def sampleResultA : PlatformSearchResult :=
  { platform := "Flipkart", name := "aaab", url := "https://www.flipkart.com/a", numericPrice := 5 }

/-- Sample matcher candidate: name "aaac", price 10; similar to "aaa" but
not to "aaab". -/
def sampleResultC : PlatformSearchResult :=
  { platform := "Flipkart", name := "aaac", url := "https://www.flipkart.com/c", numericPrice := 10 }

/-- Sample matcher candidate: name "aaa", price 7; similar to both "aaab"
and "aaac". -/
def sampleResultB : PlatformSearchResult :=
  { platform := "Flipkart", name := "aaa", url := "https://www.flipkart.com/b", numericPrice := 7 }

/-- Sample extraction oracle: every vendor yields the same record. -/
def samplePage : Vendor → ProductData :=
  fun _ =>
    { name := "Wireless Mouse", price := 799, currency := "INR", brand := "Logi"
      platformName := "Amazon", platformUrl := "https://www.amazon.in/dp/ABC123"
      inStock := true }

/-- Sample raw Google-Shopping result with an Amazon source. -/
def sampleGoogleResult : GoogleShoppingResult :=
  { title := "Wireless Mouse", price := "₹1,299", source := "Amazon.in"
    link := "https://amazon.in/dp/ABC123" }

/-- The mapped result `mapOneResult` produces for `sampleGoogleResult`. -/
def sampleMapped : MappedResult :=
  { platformName := "Amazon", platformUrl := "https://amazon.in/dp/ABC123"
    title := "Wireless Mouse", price := 1299, currency := "INR", inStock := true
    sourceTag := "google_shopping" }

/-! ## Helper lemmas -/

theorem calculateSimilarity_eval (a b : String) (m d : ℕ)
    (hm : (significantWords a).countP
        (fun w1 => (significantWords b).any (fun w2 => wordMatch w1 w2)) = m)
    (hd : max (significantWords a).length (significantWords b).length = d)
    (hd0 : d ≠ 0) :
    calculateSimilarity a b = some ((m : ℚ) / (d : ℚ)) := by
  simp only [calculateSimilarity, hm, hd]
  rw [if_neg hd0]

theorem wordMatch_symm (w1 w2 : List Char) : wordMatch w1 w2 = wordMatch w2 w1 := by
  simp [wordMatch, Bool.or_comm]

theorem countP_pos_comm (W1 W2 : List (List Char)) :
    (0 < W1.countP (fun w1 => W2.any (fun w2 => wordMatch w1 w2)) ↔
     0 < W2.countP (fun w2 => W1.any (fun w1 => wordMatch w2 w1))) := by
  rw [List.countP_pos_iff, List.countP_pos_iff]
  constructor
  · rintro ⟨w1, hw1, hmem⟩
    obtain ⟨w2, hw2, hm⟩ := List.any_eq_true.mp hmem
    exact ⟨w2, hw2, List.any_eq_true.mpr ⟨w1, hw1, (wordMatch_symm w1 w2) ▸ hm⟩⟩
  · rintro ⟨w2, hw2, hmem⟩
    obtain ⟨w1, hw1, hmem2⟩ := List.any_eq_true.mp hmem
    exact ⟨w1, hw1, List.any_eq_true.mpr ⟨w2, hw2, (wordMatch_symm w2 w1) ▸ hmem2⟩⟩

theorem calculateSimilarity_none_iff (a b : String) :
    calculateSimilarity a b = none ↔
      max (significantWords a).length (significantWords b).length = 0 := by
  simp only [calculateSimilarity]
  split <;> simp_all

theorem calculateSimilarity_some (a b : String) (q : ℚ)
    (h : calculateSimilarity a b = some q) :
    max (significantWords a).length (significantWords b).length ≠ 0 ∧
    q = ((significantWords a).countP
        (fun w1 => (significantWords b).any (fun w2 => wordMatch w1 w2)) : ℚ) /
      ((max (significantWords a).length (significantWords b).length : ℕ) : ℚ) := by
  simp only [calculateSimilarity] at h
  split at h
  · exact absurd h (by simp)
  · rename_i hd
    exact ⟨hd, (Option.some.inj h).symm⟩

/-! ## Claim C1 — recommendation fallback -/

/-- C1 counterexample. The claim says any failing model call still yields a
fallback recommendation. At concrete statistics with non-empty history, a
transport error and a non-OK (503) response are both answered with the 500
error response of the outer catch, not with the fallback recommendation. -/
theorem recommendation_error_on_transport_failure :
    handleRecommendation sampleStats .transportError
      = .error 500 "Failed to generate recommendation" ∧
    handleRecommendation sampleStats (.response 503 none)
      = .error 500 "Failed to generate recommendation" ∧
    handleRecommendation sampleStats .transportError
      ≠ .ok (fallbackRecommendation sampleStats) := by
  exact ⟨rfl, rfl, by simp [handleRecommendation]⟩

/-- C1 (amended): the deterministic fallback is returned exactly when the
model call itself succeeds (HTTP OK) but its reply is not parseable as the
expected JSON shape; a transport error or non-OK response instead reaches
the outer catch and produces an error response. -/
theorem recommendation_fallback_only_on_unparseable_reply (s : PriceStats) (status : ℕ)
    (parsedReply : Option Recommendation) :
    (responseOk status = true →
      handleRecommendation s (.response status none) = .ok (fallbackRecommendation s)) ∧
    (responseOk status = false →
      handleRecommendation s (.response status parsedReply) =
        .error 500 "Failed to generate recommendation") ∧
    handleRecommendation s .transportError
      = .error 500 "Failed to generate recommendation" := by
  refine ⟨fun h => ?_, fun h => ?_, rfl⟩ <;> simp [handleRecommendation, h]

/-- C1 witness: at the sample statistics, an OK response with an
unparseable reply yields the fallback, and a 503 yields the error path. -/
theorem recommendation_fallback_only_on_unparseable_reply_witness :
    handleRecommendation sampleStats (.response 200 none)
      = .ok (fallbackRecommendation sampleStats) ∧
    handleRecommendation sampleStats (.response 503 none)
      = .error 500 "Failed to generate recommendation" := by
  exact ⟨(recommendation_fallback_only_on_unparseable_reply sampleStats 200 none).1 (by decide),
    (recommendation_fallback_only_on_unparseable_reply sampleStats 503 none).2.1 (by decide)⟩

/-! ## Claim C2 — similarity symmetry -/

/-- C2 counterexample. The similarity score is not symmetric: for
`a = "abcd abc"` and `b = "abc"` the score is 1 in one direction (both
words of `a` contain the word of `b`) and 1/2 in the other (the single
word of `b` matches, divided by the larger word count 2). -/
theorem calculateSimilarity_not_symmetric :
    calculateSimilarity "abcd abc" "abc" = some 1 ∧
    calculateSimilarity "abc" "abcd abc" = some (1 / 2) ∧
    (1 : ℚ) ≠ 1 / 2 := by
  refine ⟨?_, ?_, by norm_num⟩
  · rw [calculateSimilarity_eval "abcd abc" "abc" 2 2 (by decide) (by decide) (by decide)]
    norm_num
  · rw [calculateSimilarity_eval "abc" "abcd abc" 1 2 (by decide) (by decide) (by decide)]
    norm_num

/-- C2 (amended): the score itself is not symmetric — the numerator counts
only the first argument's significant words — but the symmetric parts hold:
both directions are NaN together (same denominator `max` of the word
counts), and one direction is positive exactly when the other is, because
the per-word containment test is symmetric. -/
theorem calculateSimilarity_positivity_symmetric (a b : String) :
    (calculateSimilarity a b = none ↔ calculateSimilarity b a = none) ∧
    (∀ q r, calculateSimilarity a b = some q → calculateSimilarity b a = some r →
      (0 < q ↔ 0 < r)) := by
  constructor
  · rw [calculateSimilarity_none_iff, calculateSimilarity_none_iff, Nat.max_comm]
  · intro q r hq hr
    obtain ⟨hdq, rfl⟩ := calculateSimilarity_some a b q hq
    obtain ⟨hdr, rfl⟩ := calculateSimilarity_some b a r hr
    have hdpos : (0 : ℚ) <
        ((max (significantWords a).length (significantWords b).length : ℕ) : ℚ) := by
      exact_mod_cast Nat.pos_of_ne_zero hdq
    have hdpos2 : (0 : ℚ) <
        ((max (significantWords b).length (significantWords a).length : ℕ) : ℚ) := by
      exact_mod_cast Nat.pos_of_ne_zero hdr
    rw [div_pos_iff_of_pos_right hdpos, div_pos_iff_of_pos_right hdpos2]
    constructor <;> intro h
    · have h2 : 0 < (significantWords b).countP
          (fun w2 => (significantWords a).any (fun w1 => wordMatch w2 w1)) :=
        (countP_pos_comm _ _).mp (by exact_mod_cast h)
      exact_mod_cast h2
    · have h2 : 0 < (significantWords a).countP
          (fun w1 => (significantWords b).any (fun w2 => wordMatch w1 w2)) :=
        (countP_pos_comm _ _).mpr (by exact_mod_cast h)
      exact_mod_cast h2

/-- C2 witness: the amended theorem applied to the counterexample pair —
both scores are non-NaN together and both are positive. -/
theorem calculateSimilarity_positivity_symmetric_witness :
    (calculateSimilarity "abcd abc" "abc" = none ↔
      calculateSimilarity "abc" "abcd abc" = none) ∧
    ((0 : ℚ) < 1 ↔ (0 : ℚ) < 1 / 2) := by
  have h := calculateSimilarity_positivity_symmetric "abcd abc" "abc"
  refine ⟨h.1, h.2 1 (1 / 2) ?_ ?_⟩
  · rw [calculateSimilarity_eval "abcd abc" "abc" 2 2 (by decide) (by decide) (by decide)]
    norm_num
  · rw [calculateSimilarity_eval "abc" "abcd abc" 1 2 (by decide) (by decide) (by decide)]
    norm_num

/-! ## Claim C9 — similarity range and the NaN case -/

/-- C9: when at least one input has a significant word (length > 2), the
score is a number in [0, 1]; when neither has one, the division is the
unguarded 0/0, i.e. NaN (`none`), not 0. -/
theorem calculateSimilarity_range_or_nan (a b : String) :
    (significantWords a ≠ [] ∨ significantWords b ≠ [] →
      ∃ q, calculateSimilarity a b = some q ∧ 0 ≤ q ∧ q ≤ 1) ∧
    (significantWords a = [] → significantWords b = [] →
      calculateSimilarity a b = none) := by
  constructor
  · intro hne
    have hd : 0 < max (significantWords a).length (significantWords b).length := by
      rcases hne with h | h
      · exact lt_max_of_lt_left (List.length_pos.mpr h)
      · exact lt_max_of_lt_right (List.length_pos.mpr h)
    refine ⟨_, calculateSimilarity_eval a b _ _ rfl rfl (Nat.pos_iff_ne_zero.mp hd), ?_, ?_⟩
    · positivity
    · rw [div_le_one (by exact_mod_cast hd)]
      exact_mod_cast le_trans (List.countP_le_length _) (le_max_left _ _)
  · intro ha hb
    simp only [calculateSimilarity, ha, hb]
    simp

/-- C9 witness: `"abcd"` against `""` has one significant word and scores
0 ∈ [0, 1]; `"ab"` against `"x"` has none and scores NaN. -/
theorem calculateSimilarity_range_or_nan_witness :
    calculateSimilarity "abcd" "" = some 0 ∧ (0 : ℚ) ≤ 0 ∧ (0 : ℚ) ≤ 1 ∧
    calculateSimilarity "ab" "x" = none := by
  have h1 := (calculateSimilarity_range_or_nan "abcd" "").1 (Or.inl (by decide))
  have h2 := (calculateSimilarity_range_or_nan "ab" "x").2 (by decide) (by decide)
  have he : calculateSimilarity "abcd" "" = some 0 := by
    rw [calculateSimilarity_eval "abcd" "" 0 1 (by decide) (by decide) (by decide)]
    norm_num
  obtain ⟨q, hq, hq0, hq1⟩ := h1
  rw [he] at hq
  obtain rfl : (0 : ℚ) = q := Option.some.inj hq
  exact ⟨he, hq0, hq1, h2⟩

/-! ## Claim C8 — deterministic fallback rule -/

/-- C8: whenever the current price is at most the average, the fallback
recommendation says to buy; its price point is "Great deal" within 10% of
the minimum and "Good price" otherwise (the "Above average" branch cannot
fire below the average), and the confidence is the fixed 75. -/
theorem fallback_below_average_recommendation (s : PriceStats) (h : s.current ≤ s.avg) :
    (fallbackRecommendation s).shouldBuy = true ∧
    (fallbackRecommendation s).pricePoint =
      (if s.current ≤ 1.1 * s.min then "Great deal" else "Good price") ∧
    (fallbackRecommendation s).confidence = 75 := by
  refine ⟨by simp [fallbackRecommendation, h], ?_, rfl⟩
  simp only [fallbackRecommendation]
  rw [show (1.1 : ℚ) * s.min = s.min * 1.1 from mul_comm _ _]
  by_cases hm : s.current ≤ s.min * 1.1
  · simp [hm]
  · simp [hm, h]

/-- C8 witness: at current 80, min 70, avg 100 the fallback recommends
buying at "Good price" (80 is not within 10% of 70) with confidence 75. -/
theorem fallback_below_average_recommendation_witness :
    (fallbackRecommendation sampleStats).shouldBuy = true ∧
    (fallbackRecommendation sampleStats).pricePoint = "Good price" ∧
    (fallbackRecommendation sampleStats).confidence = 75 := by
  have h := fallback_below_average_recommendation sampleStats (by norm_num [sampleStats])
  refine ⟨h.1, ?_, h.2.2⟩
  rw [h.2.1]
  norm_num [sampleStats]


/-! ## Claim C5 — price statistics bounds -/

theorem foldl_min_le_init (ps : List ℚ) (p : ℚ) : ps.foldl min p ≤ p := by
  induction ps generalizing p with
  | nil => simp
  | cons a as ih => exact le_trans (ih (min p a)) (min_le_left p a)

theorem foldl_min_le_mem (ps : List ℚ) (p x : ℚ) (hx : x ∈ ps) : ps.foldl min p ≤ x := by
  induction ps generalizing p with
  | nil => cases hx
  | cons a as ih =>
    rcases List.mem_cons.mp hx with rfl | hx2
    · exact le_trans (foldl_min_le_init as (min p x)) (min_le_right p x)
    · exact ih (min p a) hx2

theorem le_foldl_max_init (ps : List ℚ) (p : ℚ) : p ≤ ps.foldl max p := by
  induction ps generalizing p with
  | nil => simp
  | cons a as ih => exact le_trans (le_max_left p a) (ih (max p a))

theorem le_foldl_max_mem (ps : List ℚ) (p x : ℚ) (hx : x ∈ ps) : x ≤ ps.foldl max p := by
  induction ps generalizing p with
  | nil => cases hx
  | cons a as ih =>
    rcases List.mem_cons.mp hx with rfl | hx2
    · exact le_trans (le_max_right p x) (le_foldl_max_init as (max p x))
    · exact ih (max p a) hx2

theorem priceMin_le_mem (l : List ℚ) (x : ℚ) (hx : x ∈ l) : priceMin l ≤ x := by
  cases l with
  | nil => cases hx
  | cons p ps =>
    rcases List.mem_cons.mp hx with rfl | hx2
    · exact foldl_min_le_init ps x
    · exact foldl_min_le_mem ps p x hx2

theorem le_priceMax_mem (l : List ℚ) (x : ℚ) (hx : x ∈ l) : x ≤ priceMax l := by
  cases l with
  | nil => cases hx
  | cons p ps =>
    rcases List.mem_cons.mp hx with rfl | hx2
    · exact le_foldl_max_init ps x
    · exact le_foldl_max_mem ps p x hx2

theorem mul_length_le_sum (l : List ℚ) (m : ℚ) (h : ∀ x ∈ l, m ≤ x) :
    m * l.length ≤ l.sum := by
  induction l with
  | nil => simp
  | cons a as ih =>
    have h1 := ih (fun x hx => h x (List.mem_cons_of_mem a hx))
    have h2 := h a (List.mem_cons_self a as)
    simp only [List.sum_cons, List.length_cons]
    push_cast
    nlinarith

theorem sum_le_mul_length (l : List ℚ) (m : ℚ) (h : ∀ x ∈ l, x ≤ m) :
    l.sum ≤ m * l.length := by
  induction l with
  | nil => simp
  | cons a as ih =>
    have h1 := ih (fun x hx => h x (List.mem_cons_of_mem a hx))
    have h2 := h a (List.mem_cons_self a as)
    simp only [List.sum_cons, List.length_cons]
    push_cast
    nlinarith

/-- C5: for a non-empty price list ordered most-recent first, the derived
statistics satisfy min ≤ current ≤ max, min ≤ avg ≤ max, min ≤ max, and
current is the first (most recent) price. -/
theorem price_stats_bounds (prices : List ℚ) (h : prices ≠ []) :
    (computeStats prices).min ≤ (computeStats prices).current ∧
    (computeStats prices).current ≤ (computeStats prices).max ∧
    (computeStats prices).min ≤ (computeStats prices).avg ∧
    (computeStats prices).avg ≤ (computeStats prices).max ∧
    (computeStats prices).min ≤ (computeStats prices).max ∧
    (computeStats prices).current = prices.head h := by
  have hlen : (0 : ℚ) < (prices.length : ℚ) := by
    exact_mod_cast List.length_pos.mpr h
  have hhead : prices.head h ∈ prices := List.head_mem h
  have hcur : (computeStats prices).current = prices.head h := by
    cases prices with
    | nil => exact absurd rfl h
    | cons p ps => rfl
  have hmin : (computeStats prices).min ≤ prices.head h := priceMin_le_mem _ _ hhead
  have hmax : prices.head h ≤ (computeStats prices).max := le_priceMax_mem _ _ hhead
  have havg1 : (computeStats prices).min ≤ (computeStats prices).avg := by
    show priceMin prices ≤ priceAvg prices
    rw [priceAvg, le_div_iff₀ hlen]
    exact mul_length_le_sum prices _ (fun x hx => priceMin_le_mem _ _ hx)
  have havg2 : (computeStats prices).avg ≤ (computeStats prices).max := by
    show priceAvg prices ≤ priceMax prices
    rw [priceAvg, div_le_iff₀ hlen]
    exact sum_le_mul_length prices _ (fun x hx => le_priceMax_mem _ _ hx)
  exact ⟨hcur ▸ hmin, hcur ▸ hmax, havg1, havg2, le_trans (hcur ▸ hmin) (hcur ▸ hmax), hcur⟩

/-- C5 witness: the history `[100, 120, 80, 100]` (most recent first)
satisfies the bounds, and its current price is the head, 100. -/
theorem price_stats_bounds_witness :
    (computeStats [100, 120, 80, 100]).min ≤ (computeStats [100, 120, 80, 100]).current ∧
    (computeStats [100, 120, 80, 100]).current = 100 := by
  have h := price_stats_bounds [100, 120, 80, 100] (List.cons_ne_nil _ _)
  exact ⟨h.1, by rw [h.2.2.2.2.2]; rfl⟩

/-! ## Claim C10 — inserted price rows have currency INR and in_stock true -/

theorem mapOneResult_currency_stock (r : GoogleShoppingResult) (m : MappedResult)
    (h : mapOneResult r = some m) : m.currency = "INR" ∧ m.inStock = true := by
  simp only [mapOneResult] at h
  split at h
  · exact absurd h (by simp)
  · split at h
    · exact absurd h (by simp)
    · split at h
      · obtain rfl := Option.some.inj h
        exact ⟨rfl, rfl⟩
      · exact absurd h (by simp)

/-- C10: every price-history row built by the cross-platform matcher, the
legacy search handler, or the Google-Shopping handler carries the fixed
currency "INR" and the fixed stock flag true, whatever the scraped listing
said. -/
theorem search_inserted_rows_currency_stock (pid : ℕ)
    (unique : List PlatformSearchResult) (accepted : List LegacyMatch)
    (raw : List GoogleShoppingResult) :
    (∀ row ∈ matcherInsertedRows pid unique, row.currency = "INR" ∧ row.inStock = true) ∧
    (∀ row ∈ legacyInsertedRows pid accepted, row.currency = "INR" ∧ row.inStock = true) ∧
    (∀ row ∈ googleInsertedRows pid raw, row.currency = "INR" ∧ row.inStock = true) := by
  refine ⟨?_, ?_, ?_⟩
  · intro row hrow
    obtain ⟨r, _, rfl⟩ := List.mem_map.mp hrow
    exact ⟨rfl, rfl⟩
  · intro row hrow
    obtain ⟨r, _, rfl⟩ := List.mem_map.mp hrow
    exact ⟨rfl, rfl⟩
  · intro row hrow
    obtain ⟨m, hm, rfl⟩ := List.mem_map.mp hrow
    obtain ⟨r, _, hmr⟩ := List.mem_filterMap.mp hm
    exact mapOneResult_currency_stock r m hmr

theorem mapOneResult_sample : mapOneResult sampleGoogleResult = some sampleMapped := by
  have hfind : platformMappings.find?
      (fun kv => isInfixL kv.1.data (jsToLower sampleGoogleResult.source))
      = some ("amazon", "Amazon") := by decide
  have hfilter : sampleGoogleResult.price.data.filter (fun c => c.isDigit || c = '.')
      = ['1', '2', '9', '9'] := by decide
  have htake : ['1', '2', '9', '9'].takeWhile Char.isDigit = ['1', '2', '9', '9'] := by decide
  have hdrop : ['1', '2', '9', '9'].dropWhile Char.isDigit = ([] : List Char) := by decide
  have hval : digitsVal ['1', '2', '9', '9'] = 1299 := by
    have h1 : ('1'.toNat - 48 : ℕ) = 1 := by decide
    have h2 : ('2'.toNat - 48 : ℕ) = 2 := by decide
    have h9 : ('9'.toNat - 48 : ℕ) = 9 := by decide
    simp only [digitsVal, List.foldl]
    norm_num [h1, h2, h9]
  have hparse : parsePriceText sampleGoogleResult.price = some 1299 := by
    rw [parsePriceText, hfilter]
    simp only [jsParseFloat, htake, hdrop, hval]
    norm_num [digitsVal]
  rw [mapOneResult, hfind, hparse]
  norm_num [sampleMapped, sampleGoogleResult]

/-- C10 witness: a matcher row for the sample candidate and the
Google-Shopping row for the sample listing (source "Amazon.in", displayed
price "₹1,299") both carry currency "INR" and in_stock true. -/
theorem search_inserted_rows_currency_stock_witness :
    (matcherPriceRow 7 sampleResultA).currency = "INR" ∧
    (matcherPriceRow 7 sampleResultA).inStock = true ∧
    (googlePriceRow 7 sampleMapped).currency = "INR" ∧
    (googlePriceRow 7 sampleMapped).inStock = true := by
  have h := search_inserted_rows_currency_stock 7 [sampleResultA] [] [sampleGoogleResult]
  have h1 := h.1 (matcherPriceRow 7 sampleResultA) (by simp [matcherInsertedRows])
  have h2 := h.2.2 (googlePriceRow 7 sampleMapped)
    (by simp [googleInsertedRows, mapToKnownPlatforms, mapOneResult_sample])
  exact ⟨h1.1, h1.2, h2.1, h2.2⟩

/-! ## Claim C6 — same-vendor deduplication -/

/-- C6 (amended): when exactly two candidates of the same vendor with name
similarity above 0.8 enter the deduplication, it keeps exactly one — the
second when strictly cheaper, otherwise the first — and the kept one is
never more expensive than either. With further candidates present the
non-transitive similarity can keep the dearer member of such a pair (see
the counterexample). -/
theorem dedup_pair_keeps_cheaper (x y : PlatformSearchResult)
    (hp : x.platform = y.platform)
    (hs : simGTb (calculateSimilarity x.name y.name) 0.8 = true) :
    uniqueResults [x, y] = [if y.numericPrice < x.numericPrice then y else x] ∧
    (if y.numericPrice < x.numericPrice then y else x).numericPrice ≤ x.numericPrice ∧
    (if y.numericPrice < x.numericPrice then y else x).numericPrice ≤ y.numericPrice := by
  have hd : dedupMatch x y = true := by
    simp [dedupMatch, hp, hs]
  have stepA : dedupStep [] x = [x] := rfl
  have main : uniqueResults [x, y] = dedupStep [x] y := by
    simp [uniqueResults, List.foldl, stepA]
  by_cases hlt : y.numericPrice < x.numericPrice
  · have stepB : dedupStep [x] y = [y] := by
      simp [dedupStep, List.find?, hd, hlt, List.filter]
    rw [main, stepB, if_pos hlt]
    exact ⟨rfl, le_of_lt hlt, le_refl _⟩
  · have stepB : dedupStep [x] y = [x] := by
      simp [dedupStep, List.find?, hd, hlt, List.filter]
    rw [main, stepB, if_neg hlt]
    exact ⟨rfl, le_refl _, le_of_not_lt hlt⟩

/-- C6 witness: on the two-candidate list `[sampleResultC, sampleResultB]`
(same vendor, similarity 1 > 0.8, prices 10 and 7) the deduplication keeps
exactly the cheaper `sampleResultB`. -/
theorem dedup_pair_keeps_cheaper_witness :
    uniqueResults [sampleResultC, sampleResultB] = [sampleResultB] ∧
    sampleResultB.numericPrice ≤ sampleResultC.numericPrice := by
  have hs : simGTb (calculateSimilarity sampleResultC.name sampleResultB.name) 0.8 = true := by
    rw [show sampleResultC.name = "aaac" from rfl, show sampleResultB.name = "aaa" from rfl,
      calculateSimilarity_eval "aaac" "aaa" 1 1 (by decide) (by decide) (by decide)]
    simp only [simGTb]
    norm_num
  have h := dedup_pair_keeps_cheaper sampleResultC sampleResultB rfl hs
  have hif : (if sampleResultB.numericPrice < sampleResultC.numericPrice
      then sampleResultB else sampleResultC) = sampleResultB := by
    rw [if_pos]
    show (7 : ℚ) < 10
    norm_num
  exact ⟨hif ▸ h.1, hif ▸ h.2.1⟩

/-- C6 counterexample. The list `[A, C, B]` with prices 5, 10, 7 on one
vendor, where B ("aaa") is similar to both A ("aaab") and C ("aaac") but A
and C are not similar to each other, deduplicates to `[A, C]`: of the pair
(C, B) — same vendor, similarity 1 > 0.8 — the retained candidate is the
dearer C (10), not the cheaper B (7), because B was only compared against
the first duplicate found, A (5). -/
theorem dedup_retains_higher_priced_counterexample :
    uniqueResults [sampleResultA, sampleResultC, sampleResultB]
      = [sampleResultA, sampleResultC] ∧
    sampleResultC.platform = sampleResultB.platform ∧
    simGTb (calculateSimilarity sampleResultC.name sampleResultB.name) 0.8 = true ∧
    simGTb (calculateSimilarity sampleResultB.name sampleResultC.name) 0.8 = true ∧
    sampleResultB.numericPrice < sampleResultC.numericPrice ∧
    sampleResultB ∉ [sampleResultA, sampleResultC] ∧
    sampleResultC ∈ [sampleResultA, sampleResultC] := by
  have hAC : dedupMatch sampleResultA sampleResultC = false := by
    have hsim : calculateSimilarity sampleResultA.name sampleResultC.name = some 0 := by
      rw [show sampleResultA.name = "aaab" from rfl, show sampleResultC.name = "aaac" from rfl]
      rw [calculateSimilarity_eval "aaab" "aaac" 0 1 (by decide) (by decide) (by decide)]
      norm_num
    simp only [dedupMatch, hsim, simGTb]
    simp
    exact fun _ => by norm_num
  have hAB : dedupMatch sampleResultA sampleResultB = true := by
    have hsim : calculateSimilarity sampleResultA.name sampleResultB.name = some 1 := by
      rw [show sampleResultA.name = "aaab" from rfl, show sampleResultB.name = "aaa" from rfl]
      rw [calculateSimilarity_eval "aaab" "aaa" 1 1 (by decide) (by decide) (by decide)]
      norm_num
    simp only [dedupMatch, hsim, simGTb, Bool.and_eq_true, beq_iff_eq]
    exact ⟨rfl, by norm_num⟩
  have e2 : dedupStep [sampleResultA] sampleResultC = [sampleResultA, sampleResultC] := by
    simp [dedupStep, List.find?, List.filter, hAC]
  have e3 : dedupStep [sampleResultA, sampleResultC] sampleResultB
      = [sampleResultA, sampleResultC] := by
    have hfind : List.find? (fun item => dedupMatch item sampleResultB)
        [sampleResultA, sampleResultC] = some sampleResultA := by
      simp [List.find?, hAB]
    simp only [dedupStep, hfind]
    rw [if_neg]
    norm_num [sampleResultA, sampleResultB]
  have heval : uniqueResults [sampleResultA, sampleResultC, sampleResultB]
      = [sampleResultA, sampleResultC] := by
    calc uniqueResults [sampleResultA, sampleResultC, sampleResultB]
        = dedupStep (dedupStep (dedupStep [] sampleResultA) sampleResultC) sampleResultB := by
          simp [uniqueResults, List.foldl]
      _ = [sampleResultA, sampleResultC] := by
          rw [show dedupStep [] sampleResultA = [sampleResultA] from rfl, e2, e3]
  have hCB : simGTb (calculateSimilarity sampleResultC.name sampleResultB.name) 0.8 = true := by
    rw [show sampleResultC.name = "aaac" from rfl, show sampleResultB.name = "aaa" from rfl,
      calculateSimilarity_eval "aaac" "aaa" 1 1 (by decide) (by decide) (by decide)]
    simp only [simGTb]
    norm_num
  have hBC : simGTb (calculateSimilarity sampleResultB.name sampleResultC.name) 0.8 = true := by
    rw [show sampleResultB.name = "aaa" from rfl, show sampleResultC.name = "aaac" from rfl,
      calculateSimilarity_eval "aaa" "aaac" 1 1 (by decide) (by decide) (by decide)]
    simp only [simGTb]
    norm_num
  refine ⟨heval, rfl, hCB, hBC, by norm_num [sampleResultB, sampleResultC], ?_, ?_⟩
  · intro hmem
    rcases List.mem_cons.mp hmem with h | h
    · exact absurd (congrArg PlatformSearchResult.name h) (by simp [sampleResultA, sampleResultB])
    · rcases List.mem_cons.mp h with h2 | h2
      · exact absurd (congrArg PlatformSearchResult.name h2) (by simp [sampleResultB, sampleResultC])
      · cases h2
  · exact List.mem_cons_of_mem _ (List.mem_cons_self _ _)

/-! ## Claim C7 — ranking and best deal -/

/-- C7: the matcher's result list is sorted ascending by numeric price, and
`bestDeal` is null exactly when the deduplicated list is empty, otherwise a
member of it whose price is least. -/
theorem results_sorted_bestDeal_lowest (allResults : List PlatformSearchResult) :
    List.Sorted priceLE (finalResults allResults) ∧
    (bestDeal allResults = none ↔ uniqueResults allResults = []) ∧
    (∀ r, bestDeal allResults = some r →
      r ∈ uniqueResults allResults ∧
      ∀ x ∈ uniqueResults allResults, r.numericPrice ≤ x.numericPrice) := by
  have hperm : (finalResults allResults).Perm (uniqueResults allResults) :=
    List.perm_insertionSort priceLE _
  have hsorted : List.Sorted priceLE (finalResults allResults) :=
    List.sorted_insertionSort priceLE _
  refine ⟨hsorted, ?_, ?_⟩
  · rw [bestDeal, List.head?_eq_none_iff]
    constructor
    · intro h
      exact (h ▸ hperm).symm.eq_nil
    · intro h
      exact (h ▸ hperm).eq_nil
  · intro r hr
    rw [bestDeal] at hr
    obtain ⟨t, ht⟩ := List.head?_eq_some_iff.mp hr
    have hmemr : r ∈ finalResults allResults := ht ▸ List.mem_cons_self _ _
    refine ⟨hperm.mem_iff.mp hmemr, ?_⟩
    intro x hx
    have hxf : x ∈ finalResults allResults := hperm.mem_iff.mpr hx
    rw [ht] at hxf hsorted
    rcases List.mem_cons.mp hxf with rfl | hxt
    · exact le_refl _
    · exact (List.pairwise_cons.mp hsorted).1 x hxt

/-- C7 witness: for the two dissimilar candidates A (price 5) and C (price
10), the ranked list is `[A, C]` and the best deal is A, a member with the
least price. -/
theorem results_sorted_bestDeal_lowest_witness :
    bestDeal [sampleResultA, sampleResultC] = some sampleResultA ∧
    sampleResultA ∈ uniqueResults [sampleResultA, sampleResultC] ∧
    sampleResultA.numericPrice ≤ sampleResultC.numericPrice := by
  have hAC : dedupMatch sampleResultA sampleResultC = false := by
    have hsim : calculateSimilarity sampleResultA.name sampleResultC.name = some 0 := by
      rw [show sampleResultA.name = "aaab" from rfl, show sampleResultC.name = "aaac" from rfl]
      rw [calculateSimilarity_eval "aaab" "aaac" 0 1 (by decide) (by decide) (by decide)]
      norm_num
    simp only [dedupMatch, hsim, simGTb]
    simp
    exact fun _ => by norm_num
  have hu : uniqueResults [sampleResultA, sampleResultC] = [sampleResultA, sampleResultC] := by
    calc uniqueResults [sampleResultA, sampleResultC]
        = dedupStep (dedupStep [] sampleResultA) sampleResultC := by
          simp [uniqueResults, List.foldl]
      _ = [sampleResultA, sampleResultC] := by
          rw [show dedupStep [] sampleResultA = [sampleResultA] from rfl]
          simp [dedupStep, List.find?, List.filter, hAC]
  have hle : priceLE sampleResultA sampleResultC := by
    show (5 : ℚ) ≤ 10
    norm_num
  have hfinal : finalResults [sampleResultA, sampleResultC]
      = [sampleResultA, sampleResultC] := by
    rw [finalResults, hu]
    simp [List.insertionSort, List.orderedInsert, hle]
  have hbest : bestDeal [sampleResultA, sampleResultC] = some sampleResultA := by
    rw [bestDeal, hfinal]
    rfl
  have h := (results_sorted_bestDeal_lowest [sampleResultA, sampleResultC]).2.2
    sampleResultA hbest
  exact ⟨hbest, h.1, h.2 sampleResultC (by rw [hu]; simp)⟩

/-! ## Claim C4 — fetch versus validation order -/

/-- C4 counterexample. For a URL whose domain is unsupported (and which the
dispatch also rejects), the trace of `scrapeProduct` still contains the
page fetch: the fetch at line 28 precedes the vendor check at lines 36–48,
so a network fetch is performed even for unsupported URLs. -/
theorem scrape_fetches_unsupported_domain :
    specDomainSupported (specUrlDomain "https://www.example.com/item") = false ∧
    vendorFor "https://www.example.com/item" = none ∧
    ScrapeEvent.fetch "https://www.example.com/item"
      ∈ scrapeProductTrace "https://www.example.com/item" := by
  refine ⟨by decide, by decide, ?_⟩
  simp only [scrapeProductTrace]
  exact List.mem_cons_self _ _

/-- C4 (amended): every scrape fetches the page first — the trace starts
with the fetch for every URL — and the vendor check runs only afterwards;
what an unrecognised URL escapes is the per-vendor extraction, not the
fetch. -/
theorem scrape_fetch_precedes_validation (url : String) :
    (scrapeProductTrace url).head? = some (ScrapeEvent.fetch url) ∧
    (vendorFor url = none → ∀ v, ScrapeEvent.extractWith v ∉ scrapeProductTrace url) := by
  refine ⟨rfl, ?_⟩
  intro h v
  simp [scrapeProductTrace, h]

/-- C4 witness: the unsupported URL above is fetched first and no
extraction event follows. -/
theorem scrape_fetch_precedes_validation_witness :
    (scrapeProductTrace "https://www.example.com/item").head?
      = some (ScrapeEvent.fetch "https://www.example.com/item") ∧
    ScrapeEvent.extractWith Vendor.amazon
      ∉ scrapeProductTrace "https://www.example.com/item" := by
  have h := scrape_fetch_precedes_validation "https://www.example.com/item"
  exact ⟨h.1, h.2 (by decide) Vendor.amazon⟩

/-! ## Claim C3 — unsupported URLs and database writes -/

/-- C3 counterexample. The dispatch tests substring containment over the
whole URL, not the domain: `"https://evil.example/amazon.deals"` has the
unsupported domain `evil.example`, yet it is routed to the Amazon extractor
and the handler writes one product row and one price-history row instead of
failing with `'Unsupported platform'`. -/
theorem scrape_writes_for_unsupported_domain :
    specDomainSupported (specUrlDomain "https://evil.example/amazon.deals") = false ∧
    vendorFor "https://evil.example/amazon.deals" = some Vendor.amazon ∧
    (handleScrape ⟨[], []⟩ "https://evil.example/amazon.deals" "user-1" samplePage).2
      = .success 799 "INR" ∧
    ((handleScrape ⟨[], []⟩ "https://evil.example/amazon.deals" "user-1"
      samplePage).1).products.length = 1 ∧
    ((handleScrape ⟨[], []⟩ "https://evil.example/amazon.deals" "user-1"
      samplePage).1).priceHistory.length = 1 := by
  exact ⟨by decide, by decide, rfl, rfl, rfl⟩

/-- C3 (amended): for every URL containing none of the five vendor tokens
anywhere — a stronger condition than an unsupported domain — the scrape
fails with the `'Unsupported platform'` error and the database state is
returned unchanged: no product row and no price-history row is written. -/
theorem scrape_unsupported_leaves_state (st : DBState) (url userId : String)
    (page : Vendor → ProductData)
    (hu : url ≠ "") (hi : userId ≠ "") (hv : vendorFor url = none) :
    handleScrape st url userId page = (st, .scrapeError "Unsupported platform") := by
  simp [handleScrape, hu, hi, hv]

/-- C3 witness: a token-free URL against the empty database errors and
leaves both tables empty. -/
theorem scrape_unsupported_leaves_state_witness :
    handleScrape ⟨[], []⟩ "https://www.example.org/item" "user-1" samplePage
      = (⟨[], []⟩, .scrapeError "Unsupported platform") :=
  scrape_unsupported_leaves_state ⟨[], []⟩ _ _ samplePage (by decide) (by decide) (by decide)

end Dealeshwar
